import Mathlib

/-!
Verification development for the messages_sync_helper repository.

Shallow embedding conventions:
* Python str values are modelled as List Char (a Python string is a sequence
  of Unicode code points); bytes values as List Nat with every entry < 256.
* Python None / Optional is modelled with Option.
* Python datetime values are modelled by their microsecond count relative to
  the Unix epoch (datetime resolution is one microsecond); datetime.now() is
  an environment input.
* All definitions are total: Python code paths that raise are modelled by
  Option results, and code paths that cannot raise are plain values.
-/

/-- Whitespace predicate of Python str.strip / str.isspace (the CPython
Py_UNICODE_ISSPACE set: ASCII 0x09-0x0D, 0x1C-0x1F, 0x20, plus NEL, NBSP and
the Unicode Zs, Zl, Zp space characters). -/
def pyIsSpace (c : Char) : Bool :=
  let n := c.toNat
  (9 ≤ n && n ≤ 13) || (28 ≤ n && n ≤ 31) || n == 32 || n == 0x85 || n == 0xA0 ||
  n == 0x1680 || (0x2000 ≤ n && n ≤ 0x200A) || n == 0x2028 || n == 0x2029 ||
  n == 0x202F || n == 0x205F || n == 0x3000

/-- Python s.strip(): remove leading and trailing whitespace. -/
def pyStrip (s : List Char) : List Char :=
  ((s.dropWhile pyIsSpace).reverse.dropWhile pyIsSpace).reverse

/-- Alphanumeric predicate of Python str.isalnum, modelled exactly on the
ASCII range (the source only feeds it text decoded from the message store;
non-ASCII alphanumerics are Unicode-table driven and all concrete inputs in
this development are ASCII). -/
def pyIsAlnumChar (c : Char) : Bool :=
  (('0' ≤ c && c ≤ '9') || ('a' ≤ c && c ≤ 'z') || ('A' ≤ c && c ≤ 'Z'))

/-- Byte is a UTF-8 continuation byte (0x80-0xBF). -/
def isUtf8Cont (b : Nat) : Bool := 0x80 ≤ b && b ≤ 0xBF

/-- Strict UTF-8 decoder, the semantics of Python bytes.decode with the utf-8
codec in strict mode: rejects overlong encodings, surrogates and code points
above U+10FFFF; any malformed input yields none (UnicodeDecodeError). -/
def utf8Decode : List Nat → Option (List Char)
  | [] => some []
  | b :: rest =>
    if b < 0x80 then
      (utf8Decode rest).map (fun cs => Char.ofNat b :: cs)
    else if 0xC2 ≤ b && b ≤ 0xDF then
      match rest with
      | c :: rest2 =>
        if isUtf8Cont c then
          (utf8Decode rest2).map (fun cs => Char.ofNat ((b - 0xC0) * 64 + (c - 0x80)) :: cs)
        else none
      | _ => none
    else if 0xE0 ≤ b && b ≤ 0xEF then
      match rest with
      | c :: d :: rest2 =>
        if (if b == 0xE0 then (0xA0 ≤ c && c ≤ 0xBF)
            else if b == 0xED then (0x80 ≤ c && c ≤ 0x9F)
            else isUtf8Cont c) && isUtf8Cont d then
          (utf8Decode rest2).map
            (fun cs => Char.ofNat ((b - 0xE0) * 4096 + (c - 0x80) * 64 + (d - 0x80)) :: cs)
        else none
      | _ => none
    else if 0xF0 ≤ b && b ≤ 0xF4 then
      match rest with
      | c :: d :: e :: rest2 =>
        if (if b == 0xF0 then (0x90 ≤ c && c ≤ 0xBF)
            else if b == 0xF4 then (0x80 ≤ c && c ≤ 0x8F)
            else isUtf8Cont c) && isUtf8Cont d && isUtf8Cont e then
          (utf8Decode rest2).map
            (fun cs => Char.ofNat
              ((b - 0xF0) * 262144 + (c - 0x80) * 4096 + (d - 0x80) * 64 + (e - 0x80)) :: cs)
        else none
      | _ => none
    else none

/-- ASCII byte sequence of an ASCII character list (used to write concrete
blobs in readable form; all characters used are below 0x80, where the UTF-8
encoding is the identity on code points). -/
def asciiCodes (s : List Char) : List Nat := s.map Char.toNat

/-! ## Timestamp codec (messages_db.apple_timestamp_to_datetime) -/

/-- Fixed offset between the Apple epoch (2001-01-01) and the Unix epoch
(1970-01-01), in seconds, as written in the source. -/
def appleEpochOffsetSeconds : Int := 978307200

/-- Round an integer quotient num / 1000 to the nearest integer, ties to
even: the rounding applied by datetime.fromtimestamp when reducing seconds
to datetime's microsecond resolution. -/
def roundHalfEvenDiv1000 (num : Int) : Int :=
  if 2 * (num % 1000) < 1000 then num / 1000
  else if 1000 < 2 * (num % 1000) then num / 1000 + 1
  else if (num / 1000) % 2 = 0 then num / 1000 else num / 1000 + 1

/-- Outcome of a Python call that can raise: a returned value or a
propagated exception. -/
inductive PyOutcome (α : Type)
  | ok (val : α)
  | raised
deriving DecidableEq

/-- POSIX timestamp of datetime.min (year 1) at UTC, in seconds. -/
def datetimeMinTs : Int := -62135596800

/-- POSIX timestamp of the first instant past datetime.max (year 10000) at
UTC, in seconds. -/
def datetimeMaxTs : Int := 253402300800

/-- Value of the conversion at datetime's microsecond resolution with
exact arithmetic: the epoch offset plus the tick count reduced from
nanoseconds to microseconds, ties to even. -/
def appleTicksToMicros (t : Int) : Int :=
  appleEpochOffsetSeconds * 1000000 + roundHalfEvenDiv1000 t

/-- Embedding of apple_timestamp_to_datetime: raw is nanoseconds since the
Apple epoch; None or 0 means no timestamp and never raises; otherwise the
source computes datetime.fromtimestamp(raw / 1e9 + 978307200), which
RAISES once the instant leaves datetime's representable year range and
otherwise yields a datetime at microsecond resolution. The arithmetic is
modelled exactly at that resolution (round half even, as fromtimestamp
rounds). Two disclosed approximations of the source remain: its
intermediate binary doubles add a further rounding error, below 1.8
microseconds while the tick count stays within 2 to the 61 of the epoch
(seconds magnitude below 2 to the 32, so each of the at most three double
roundings is under half an ulp of 2 to the 32 seconds, about 0.48
microseconds, plus the final half-microsecond quantization) — every
error-bound theorem below restricts to that range and allows 2
microseconds, absorbing it; and fromtimestamp renders in the local
timezone, shifting the raise boundary by at most 14 hours, which no tick
count any theorem touches comes near. -/
def apple_timestamp_to_datetime (raw : Option Int) : PyOutcome (Option Int) :=
  match raw with
  | none => .ok none
  | some t =>
    if t = 0 then .ok none
    else
      if datetimeMinTs * 1000000 ≤ appleTicksToMicros t ∧
          appleTicksToMicros t < datetimeMaxTs * 1000000 then
        .ok (some (appleTicksToMicros t))
      else .raised

/-- Total value-level conversion used inside the reader model: the ok
value of apple_timestamp_to_datetime, eliding the out-of-range raise (in
the source a raise would abort the whole enclosing query; no reader claim
concerns that region, and the claims about the conversion itself are
settled against the raising embedding above). -/
def appleTsOrNone (raw : Option Int) : Option Int :=
  match raw with
  | none => none
  | some t => if t = 0 then none else some (appleTicksToMicros t)

/-! ## Reconnect backoff (sync_client.SyncClient.run / connect) -/

/-- Connection-machine state of SyncClient: _connected, _reconnect_delay
(the source stores 1.0 .. 30.0, always integer-valued, modelled as Nat
seconds) and _running. -/
structure ClientState where
  connected : Bool
  reconnectDelay : Nat
  running : Bool
deriving DecidableEq

/-- Ceiling of the reconnect delay (_max_reconnect_delay = 30.0). -/
def maxReconnectDelay : Nat := 30

/-- Embedding of SyncClient.connect: on success set _connected and reset
_reconnect_delay to its floor 1.0; on failure clear _connected and leave the
delay untouched. -/
def connect_attempt (success : Bool) (s : ClientState) : ClientState :=
  if success then { s with connected := true, reconnectDelay := 1 }
  else { s with connected := false }

/-- One not-connected iteration of SyncClient.run: attempt to connect; on
failure sleep the current _reconnect_delay then double it, capped at 30.
Returns the slept duration (none when the attempt succeeded, so no sleep). -/
def run_step (attemptSucceeds : Bool) (s : ClientState) : Option Nat × ClientState :=
  if s.connected then (none, s)
  else
    let s1 := connect_attempt attemptSucceeds s
    if s1.connected then (none, s1)
    else (some s1.reconnectDelay,
          { s1 with reconnectDelay := min (s1.reconnectDelay * 2) maxReconnectDelay })

/-- State after n consecutive failed connect attempts. -/
def failState (s : ClientState) : Nat → ClientState
  | 0 => s
  | n + 1 => (run_step false (failState s n)).2

/-- Sleep durations of n consecutive failed connect attempts. -/
def failureSleeps (s : ClientState) : Nat → List Nat
  | 0 => []
  | n + 1 => failureSleeps s n ++ ((run_step false (failState s n)).1).toList

/-- Initial state of the reconnect loop after entering run(): not connected,
delay at the 1 second floor, running. -/
def clientStart : ClientState := { connected := false, reconnectDelay := 1, running := true }

/-! ## Rich-text codec (messages_db._extract_fallback and
messages_db.extract_text_from_attributed_body) -/

/-- Python substring containment (pat in s) on character lists. -/
def hasSubList (pat : List Char) : List Char → Bool
  | [] => pat.isEmpty
  | s@(_ :: rest) => List.isPrefixOf pat s || hasSubList pat rest

/-- Python candidate.startswith of a two-character reserved class-name
marker, checked against the literal used in the source. -/
def startsWithNS (s : List Char) : Bool :=
  match s with
  | 'N' :: 'S' :: _ => true
  | _ => false

/-- Filter applied by _extract_fallback to a candidate run closed in the
middle of the blob: longer than the current best, has an alphanumeric
character, does not start with the reserved class-name marker, is not the
format sentinel literal, and does not contain the internal attribute-name
infix literal. -/
def fallbackPassesMid (cand best : List Char) : Bool :=
  decide (best.length < cand.length) && cand.any pyIsAlnumChar &&
  !startsWithNS cand && !(cand == "streamtyped".data) &&
  !(hasSubList "__kIM".data cand)

/-- Filter applied by _extract_fallback to the run still open at the end of
the blob: the source's final check omits the sentinel and infix tests. -/
def fallbackPassesEnd (cand best : List Char) : Bool :=
  decide (best.length < cand.length) && cand.any pyIsAlnumChar && !startsWithNS cand

/-- Main loop of _extract_fallback: walk the blob, a printable-ASCII or
UTF-8 lead byte starts or extends the current run, a continuation byte
extends an open run, anything else closes the run; a closed run that
decodes and passes the mid-blob filter replaces the best candidate, the run
still open at the end is checked with the end-of-blob filter. cur carries
the bytes of the open run (the slice blob, from current_start to the
current index, of the source). -/
def fallbackLoop : List Nat → Option (List Nat) → List Char → List Char
  | [], cur, best =>
    match cur with
    | none => best
    | some run =>
      match utf8Decode run with
      | some cand => if fallbackPassesEnd cand best then cand else best
      | none => best
  | b :: rest, cur, best =>
    if (32 ≤ b && b ≤ 126) || (0xC0 ≤ b && b ≤ 0xF7) then
      match cur with
      | none => fallbackLoop rest (some [b]) best
      | some run => fallbackLoop rest (some (run ++ [b])) best
    else if isUtf8Cont b && cur.isSome then
      fallbackLoop rest (some (cur.getD [] ++ [b])) best
    else
      match cur with
      | none => fallbackLoop rest none best
      | some run =>
        match utf8Decode run with
        | some cand =>
          if fallbackPassesMid cand best then fallbackLoop rest none cand
          else fallbackLoop rest none best
        | none => fallbackLoop rest none best

/-- Embedding of messages_db._extract_fallback: heuristic scan keeping the
longest surviving readable run; returns its whitespace-stripped form when
the best candidate is longer than one character, else nothing. An empty
blob (Python falsy, covering both None and empty bytes) yields nothing. -/
def extract_fallback (blob : List Nat) : Option (List Char) :=
  if blob = [] then none
  else
    let best := fallbackLoop blob none []
    if 1 < best.length then some (pyStrip best) else none

/-- Index of the first occurrence of the 2-byte marker 0x01 0x2B in the
blob (Python bytes.find of the marker; none when absent). -/
def findMarker : List Nat → Option Nat
  | [] => none
  | [_] => none
  | a :: b :: rest =>
    if a = 1 && b = 43 then some 0
    else (findMarker (b :: rest)).map (· + 1)

/-- Length-prefix parse of extract_text_from_attributed_body starting at
pos (the position just after the marker): a single byte below 0x80 is the
literal length; the byte 0x81 is followed by two little-endian length
bytes; result is (text length, text start). none on the code paths the
source routes to the fallback: position past the end, truncated extended
form, or an unknown leading byte. -/
def parseLenPrefix (blob : List Nat) (pos : Nat) : Option (Nat × Nat) :=
  if blob.length ≤ pos then none
  else
    let lb := blob.getD pos 0
    if lb = 0x81 then
      if blob.length ≤ pos + 2 then none
      else some (blob.getD (pos + 1) 0 + (blob.getD (pos + 2) 0) * 256, pos + 3)
    else if lb < 0x80 then some (lb, pos + 1)
    else none

/-- Unicode object replacement character U+FFFC, stripped from decoded
message text where an attachment was embedded. -/
def objReplacementChar : Char := '￼'

/-- Declared-length slice handling of extract_text_from_attributed_body:
the end of the slice is clamped to the blob length; on a clean UTF-8 decode
the placeholder character is removed and the ends trimmed, an empty result
or a decode failure yields nothing (the source returns None there, it does
not fall back). -/
def mainSliceText (blob : List Nat) (start len : Nat) : Option (List Char) :=
  let stop := min (start + len) blob.length
  match utf8Decode ((blob.drop start).take (stop - start)) with
  | none => none
  | some txt =>
    let t := pyStrip (txt.filter (fun c => !(c == objReplacementChar)))
    if t = [] then none else some t

/-- Embedding of messages_db.extract_text_from_attributed_body: locate the
marker, parse the length prefix, decode the declared slice; marker absence
or a malformed prefix routes to _extract_fallback, an empty blob yields
nothing. The source's outer catch-all except never fires (every raising
operation inside is bounds-guarded or individually caught), so it has no
counterpart here. -/
def extract_text_from_attributed_body (blob : List Nat) : Option (List Char) :=
  if blob = [] then none
  else
    match findMarker blob with
    | none => extract_fallback blob
    | some idx =>
      match parseLenPrefix blob (idx + 2) with
      | none => extract_fallback blob
      | some (len, start) => mainSliceText blob start len

/-! ## Local store reader (messages_db.MessagesDatabase) -/

/-- Attachment dataclass of messages_db (total_bytes already defaulted to 0
as in _get_attachments_for_message; created_at at datetime resolution). -/
structure Attachment where
  rowid : Int
  guid : List Char
  filename : Option (List Char)
  mime_type : Option (List Char)
  transfer_name : Option (List Char)
  total_bytes : Int
  created_at : Option Int
deriving DecidableEq

/-- Message dataclass of messages_db. date is non-optional in the source
(datetime, with a now() fallback); date_read and date_delivered stay
optional. -/
structure Message where
  rowid : Int
  guid : List Char
  text : Option (List Char)
  handle_id : List Char
  is_from_me : Bool
  date : Int
  date_read : Option Int
  date_delivered : Option Int
  chat_id : Option Int
  has_attachments : Bool
  attachments : List Attachment
deriving DecidableEq

/-- Row of the message table as read by the queries in _get_messages
(nullable SQLite columns are Options; ROWID is the integer primary key). -/
structure MsgRow where
  rowid : Int
  guid : List Char
  text : Option (List Char)
  attributedBody : Option (List Nat)
  handleRef : Option Int
  isFromMe : Int
  dateRaw : Option Int
  dateReadRaw : Option Int
  dateDeliveredRaw : Option Int
  cacheHasAttachments : Int
deriving DecidableEq

/-- Row of the attachment table joined through message_attachment_join,
keyed by the owning message ROWID. -/
structure AttRow where
  rowid : Int
  guid : List Char
  filename : Option (List Char)
  mimeType : Option (List Char)
  transferName : Option (List Char)
  totalBytes : Option Int
  createdRaw : Option Int
deriving DecidableEq

/-- The SQLite store as seen by the reader: the message table, the handle
table (ROWID to id), chat_message_join as (chat_id, message_id) pairs, and
message_attachment_join as (message_id, attachment row) pairs. connected
models whether the reader holds a live connection (self._conn). -/
structure Db where
  connected : Bool
  messages : List MsgRow
  handles : List (Int × List Char)
  chatJoins : List (Int × Int)
  attJoins : List (Int × AttRow)

/-- Environment of a read: the wall-clock now (microseconds since the Unix
epoch) substituted for an absent message date. -/
structure ReadEnv where
  nowUs : Int
deriving DecidableEq

/-- Ascending ROWID order on message rows (ORDER BY m.ROWID ASC). -/
def msgLE (a b : MsgRow) : Prop := a.rowid ≤ b.rowid

/-- Descending ROWID order on message rows (ORDER BY m.ROWID DESC). -/
def msgGE (a b : MsgRow) : Prop := b.rowid ≤ a.rowid

instance : DecidableRel msgLE := fun a b => Int.decLe a.rowid b.rowid

instance : DecidableRel msgGE := fun a b => Int.decLe b.rowid a.rowid

instance : IsTotal MsgRow msgLE := ⟨fun a b => Int.le_total a.rowid b.rowid⟩

instance : IsTrans MsgRow msgLE := ⟨fun _ _ _ hab hbc => le_trans hab hbc⟩

instance : IsTotal MsgRow msgGE := ⟨fun a b => Int.le_total b.rowid a.rowid⟩

instance : IsTrans MsgRow msgGE := ⟨fun _ _ _ hab hbc => le_trans hbc hab⟩

/-- LEFT JOIN of one message row against chat_message_join: every matching
join row contributes an output row carrying its chat_id; a message matched
by no join row contributes a single output row with a null chat_id. -/
def chatExpand (db : Db) (m : MsgRow) : List (MsgRow × Option Int) :=
  match db.chatJoins.filter (fun cj => cj.2 == m.rowid) with
  | [] => [(m, none)]
  | l => l.map (fun cj => (m, some cj.1))

/-- Rows produced by one of the three queries of _get_messages: filter the
message table, sort by ROWID, expand the chat join, apply LIMIT. -/
def queryRows (db : Db) (keep : MsgRow → Bool) (ord : MsgRow → MsgRow → Prop)
    [DecidableRel ord] (limit : Nat) : List (MsgRow × Option Int) :=
  ((((db.messages.filter keep).insertionSort ord).map (chatExpand db)).flatten).take limit

/-- LEFT JOIN against the handle table: h.id of the handle row whose ROWID
equals m.handle_id, none when the column is null or unmatched. -/
def handleLookup (db : Db) (m : MsgRow) : Option (List Char) :=
  m.handleRef.bind (fun hr => (db.handles.find? (fun h => h.1 == hr)).map (fun h => h.2))

/-- Embedding of _get_attachments_for_message: attachment rows joined to
the message, with total_bytes defaulted to 0 when null (the source's
falsy-or default) and created_date converted. -/
def get_attachments_for_message (db : Db) (mid : Int) : List Attachment :=
  (db.attJoins.filter (fun aj => aj.1 == mid)).map (fun aj =>
    { rowid := aj.2.rowid
      guid := aj.2.guid
      filename := aj.2.filename
      mime_type := aj.2.mimeType
      transfer_name := aj.2.transferName
      total_bytes := aj.2.totalBytes.getD 0
      created_at := appleTsOrNone aj.2.createdRaw })

/-- Row-to-Message construction of _get_messages: the text column is used
unless Python-falsy (null or empty) with a truthy attributedBody, in which
case the codec result replaces it; the handle id falls back to the literal
string unknown when the join produced nothing (or an empty id, the same
falsy test); the created date falls back to now() when the raw value is
null or zero; attachments are fetched only when cache_has_attachments is
truthy. -/
def buildMessage (db : Db) (env : ReadEnv) (p : MsgRow × Option Int) : Message :=
  let m := p.1
  let textFalsy : Bool := match m.text with | none => true | some t => t.isEmpty
  let bodyTruthy : Bool := match m.attributedBody with | none => false | some bs => !bs.isEmpty
  { rowid := m.rowid
    guid := m.guid
    text := if textFalsy && bodyTruthy then
              extract_text_from_attributed_body (m.attributedBody.getD [])
            else m.text
    handle_id := match handleLookup db m with
                 | none => "unknown".data
                 | some h => if h.isEmpty then "unknown".data else h
    is_from_me := !(m.isFromMe == 0)
    date := (appleTsOrNone m.dateRaw).getD env.nowUs
    date_read := appleTsOrNone m.dateReadRaw
    date_delivered := appleTsOrNone m.dateDeliveredRaw
    chat_id := p.2
    has_attachments := !(m.cacheHasAttachments == 0)
    attachments := if !(m.cacheHasAttachments == 0) then
                     get_attachments_for_message db m.rowid
                   else [] }

/-- Embedding of get_messages_since / the since branch of _get_messages:
ascending rows with ROWID strictly above since_rowid, capped at limit;
empty without a live connection. -/
def get_messages_since (db : Db) (env : ReadEnv) (sinceRowid : Int) (limit : Nat) :
    List Message :=
  if !db.connected then []
  else (queryRows db (fun m => decide (sinceRowid < m.rowid)) msgLE limit).map
    (buildMessage db env)

/-- Embedding of get_messages_before / the before branch of _get_messages:
descending rows with ROWID strictly below before_rowid, capped at limit. -/
def get_messages_before (db : Db) (env : ReadEnv) (beforeRowid : Int) (limit : Nat) :
    List Message :=
  if !db.connected then []
  else (queryRows db (fun m => decide (m.rowid < beforeRowid)) msgGE limit).map
    (buildMessage db env)

/-- Embedding of get_latest_messages: descending rows, capped at limit. -/
def get_latest_messages (db : Db) (env : ReadEnv) (limit : Nat) : List Message :=
  if !db.connected then []
  else (queryRows db (fun _ => true) msgGE limit).map (buildMessage db env)

/-- Fields of serialize_message relevant to the wire-shape claims: the
created date is serialized unconditionally (a Python datetime is always
truthy, so the guarding conditional in the source never yields null for
it), the read and delivered dates serialize to null when absent. ISO-8601
strings are modelled by the underlying microsecond timestamps. -/
structure WireMessage where
  rowid : Int
  date : Option Int
  date_read : Option Int
  date_delivered : Option Int
  handle_id : List Char
deriving DecidableEq

/-- Embedding of sync_client.serialize_message restricted to the fields the
claims mention. -/
def serialize_message (m : Message) : WireMessage :=
  { rowid := m.rowid
    date := some m.date
    date_read := m.date_read
    date_delivered := m.date_delivered
    handle_id := m.handle_id }

/-! ## Database worker (db_worker.DatabaseWorker) -/

/-- Params dict of a DbRequest (the keys used by the three history
operations and their defaults live in the dispatch). -/
structure ReqParams where
  since_rowid : Option Int
  before_rowid : Option Int
  limit : Option Nat
deriving DecidableEq

/-- DbRequest dataclass: operation name, params, and the callback (modelled
by an opaque tag; delivery is recorded as an event). -/
structure DbRequestM where
  operation : List Char
  params : ReqParams
  cb : Nat
deriving DecidableEq

/-- Worker state visible to the claims: the _history_in_progress flag and
the request queue. The _lock only guards the check-and-set on the flag, so
the flag transitions themselves are the atomic steps modelled here. -/
structure WorkerState where
  historyInProgress : Bool
  queue : List DbRequestM
deriving DecidableEq

/-- The three operation names subject to the history mutual exclusion, as
enumerated in _process_request. -/
def is_history_op (op : List Char) : Bool :=
  op == "get_messages_since".data || op == "get_messages_before".data ||
  op == "get_latest_messages".data

/-- Embedding of DatabaseWorker._request_history: under the lock, refuse
(returning false, state untouched) when a history request is already in
flight, else set the flag; then enqueue and return true. -/
def request_history (op : List Char) (p : ReqParams) (cb : Nat) (s : WorkerState) :
    Bool × WorkerState :=
  if s.historyInProgress then (false, s)
  else (true, { historyInProgress := true, queue := s.queue ++ [⟨op, p, cb⟩] })

/-- Wrapper request_messages_since of the source. -/
def request_messages_since (sinceRowid : Int) (limit : Nat) (cb : Nat) (s : WorkerState) :
    Bool × WorkerState :=
  request_history "get_messages_since".data ⟨some sinceRowid, none, some limit⟩ cb s

/-- Wrapper request_messages_before of the source. -/
def request_messages_before (beforeRowid : Int) (limit : Nat) (cb : Nat) (s : WorkerState) :
    Bool × WorkerState :=
  request_history "get_messages_before".data ⟨none, some beforeRowid, some limit⟩ cb s

/-- Wrapper request_latest_messages of the source. -/
def request_latest_messages (limit : Nat) (cb : Nat) (s : WorkerState) :
    Bool × WorkerState :=
  request_history "get_latest_messages".data ⟨none, none, some limit⟩ cb s

/-- Result of a worker operation (list of messages for the history
operations, an integer for get_latest_rowid). -/
inductive DbResult
  | messages (l : List Message)
  | rowid (n : Int)
deriving DecidableEq

/-- Observable steps of _process_request, in program order. -/
inductive WorkerEvent
  | resultProduced (cb : Nat) (res : Option DbResult)
  | flagCleared
  | callbackInvoked (cb : Nat) (res : Option DbResult)
deriving DecidableEq

/-- Dispatch of _process_request over the operation name, with the source's
parameter defaults (since_rowid 0, limit 100); an unknown operation leaves
the result as None. The before operation forwards params.get, and a null
before_rowid reaches the latest branch of _get_messages. -/
def dispatch_operation (db : Db) (env : ReadEnv) (r : DbRequestM) : Option DbResult :=
  if r.operation == "get_messages_since".data then
    some (.messages (get_messages_since db env (r.params.since_rowid.getD 0)
      (r.params.limit.getD 100)))
  else if r.operation == "get_messages_before".data then
    match r.params.before_rowid with
    | some b => some (.messages (get_messages_before db env b (r.params.limit.getD 100)))
    | none => some (.messages (get_latest_messages db env (r.params.limit.getD 100)))
  else if r.operation == "get_latest_messages".data then
    some (.messages (get_latest_messages db env (r.params.limit.getD 100)))
  else if r.operation == "get_latest_rowid".data then
    some (.rowid (((db.messages.map (fun m => m.rowid)).max?).getD 0))
  else none

/-- Embedding of DatabaseWorker._process_request: compute the result (an
internal failure, modelled by the fail flag, is caught and leaves the
result as None), then — in the finally block — clear the history flag when
the operation was a history operation, then invoke the callback with the
result. The event list records these steps in program order. -/
def process_request (db : Db) (env : ReadEnv) (fail : Bool) (r : DbRequestM)
    (s : WorkerState) : List WorkerEvent × WorkerState :=
  let res : Option DbResult := if fail then none else dispatch_operation db env r
  ([.resultProduced r.cb res] ++
     (if is_history_op r.operation then [.flagCleared] else []) ++
     [.callbackInvoked r.cb res],
   { s with historyInProgress :=
       if is_history_op r.operation then false else s.historyInProgress })

/-- One iteration of the worker loop: dequeue the head request and process
it; an empty queue is a no-op (the timeout branch of the source). -/
def worker_step (db : Db) (env : ReadEnv) (fail : Bool) (s : WorkerState) :
    List WorkerEvent × WorkerState :=
  match s.queue with
  | [] => ([], s)
  | r :: rest => process_request db env fail r { s with queue := rest }

/-! ## Attachment path resolution and transfer (messages_db.Attachment.local_path
and sync_client.send_attachment_data) -/

/-- Filesystem and search environment of path resolution and transfer: the
home directory, existence and stat size of a path, the permanent-folder
search by transfer name (the find subprocess; none when it matched nothing
or failed), readability (an unreadable existing file raises OSError on
open), and file contents. -/
structure FS where
  home : List Char
  pathExists : List Char → Bool
  statSize : List Char → Int
  findByName : List Char → Option (List Char)
  readable : List Char → Bool
  fileData : List Char → List Nat

/-- Path interpretation of Attachment.local_path: a leading tilde-slash is
expanded against home, an absolute path is kept, anything else is joined
under the fixed Library/Messages directory. -/
def resolveStoredPath (fs : FS) (f : List Char) : List Char :=
  if List.isPrefixOf "~/".data f then fs.home ++ f.drop 1
  else if List.isPrefixOf "/".data f then f
  else fs.home ++ "/Library/Messages/".data ++ f

/-- Embedding of Attachment.local_path: nothing when the stored filename is
Python-falsy (null or empty); otherwise resolve the stored path and return
it if it exists; a non-existent temp path is searched for by transfer name
in the permanent attachments folder; in every remaining case the original
resolved path is returned even though it does not exist. -/
def local_path (fs : FS) (a : Attachment) : Option (List Char) :=
  match a.filename with
  | none => none
  | some f =>
    if f.isEmpty then none
    else
      let path := resolveStoredPath fs f
      if fs.pathExists path then some path
      else if hasSubList "/var/folders/".data f || hasSubList "/tmp/".data f then
        match a.transfer_name with
        | some tn =>
          if tn.isEmpty then some path
          else
            match fs.findByName tn with
            | some found => some found
            | none => some path
        | none => some path
      else some path

/-- Fixed inline-transfer ceiling MAX_ATTACHMENT_SIZE = 10 * 1024 * 1024. -/
def MAX_ATTACHMENT_SIZE : Int := 10 * 1024 * 1024

/-- Machine-readable error tags attached to an attachment envelope. -/
inductive AttachError
  | file_not_found
  | file_too_large
  | no_local_path
  | read_error
deriving DecidableEq

/-- Attachment envelope as assembled by send_attachment_data: serialized
metadata (with the resolved local path), optional inlined data, optional
error tag. -/
structure AttachPayload where
  att : Attachment
  resolvedPath : Option (List Char)
  data : Option (List Nat)
  error : Option AttachError
deriving DecidableEq

/-- Fate of the websocket send call at the end of send_attachment_data. -/
inductive SendOutcome
  | ok
  | closedChannel
  | otherError
deriving DecidableEq

/-- Result of send_attachment_data: the envelope handed to the channel
(none when the call bailed out before assembling one), the audit-log lines
appended by log_failed_attachment (by error tag, in order), the boolean
return value, and the connection flag afterwards. -/
structure SendAttachmentResult where
  payload : Option AttachPayload
  logged : List AttachError
  returnValue : Bool
  connectedAfter : Bool
deriving DecidableEq

/-- Envelope-assembly phase of sync_client.send_attachment_data (the body
before the final websocket send): the metadata envelope plus, with
include_data set, either the inlined file bytes — only when a local path
resolves, the file exists, and its stat size does not exceed the ceiling —
or the error tag, each error also appending exactly one audit-log line.
The size check reads the on-disk stat size, not the declared total_bytes. -/
def attach_step (fs : FS) (a : Attachment) (includeData : Bool) :
    AttachPayload × List AttachError :=
  if includeData then
    match local_path fs a with
    | some p =>
      if !fs.pathExists p then
        (⟨a, some p, none, some .file_not_found⟩, [.file_not_found])
      else if MAX_ATTACHMENT_SIZE < fs.statSize p then
        (⟨a, some p, none, some .file_too_large⟩, [.file_too_large])
      else if !fs.readable p then
        (⟨a, some p, none, some .read_error⟩, [.read_error])
      else (⟨a, some p, some (fs.fileData p), none⟩, [])
    | none => (⟨a, none, none, some .no_local_path⟩, [.no_local_path])
  else (⟨a, local_path fs a, none, none⟩, [])

/-- Embedding of sync_client.send_attachment_data: refuse when not
connected; assemble the envelope and audit lines; then send, a closed
channel clearing the connection flag, any other send fault only failing the
call. -/
def send_attachment_data (fs : FS) (connected : Bool) (outcome : SendOutcome)
    (a : Attachment) (includeData : Bool) : SendAttachmentResult :=
  if !connected then ⟨none, [], false, connected⟩
  else
    match outcome with
    | .ok => ⟨some (attach_step fs a includeData).1,
              (attach_step fs a includeData).2, true, connected⟩
    | .closedChannel => ⟨some (attach_step fs a includeData).1,
              (attach_step fs a includeData).2, false, false⟩
    | .otherError => ⟨some (attach_step fs a includeData).1,
              (attach_step fs a includeData).2, false, connected⟩

/-- Filesystem with every path present, 100 bytes on disk, readable, with
one content byte. -/
def fsSmallFile : FS :=
  ⟨"/h".data, fun _ => true, fun _ => 100, fun _ => none, fun _ => true, fun _ => [7]⟩

/-- Attachment whose declared total_bytes (20 MiB) exceeds the transfer
ceiling. -/
def attDeclaredBig : Attachment :=
  ⟨1, [], some ("/big".data), none, none, 20971520, none⟩

/-- Filesystem whose stat size is one byte over the ceiling for every
path. -/
def fsHugeFile : FS :=
  ⟨"/h".data, fun _ => true, fun _ => 10485761, fun _ => none, fun _ => true, fun _ => []⟩

/-- Attachment with a small declared size stored at an absolute path. -/
def attOnHuge : Attachment :=
  ⟨2, [], some ("/f".data), none, none, 0, none⟩

/-- Filesystem on which nothing exists, nothing is readable, and searches
find nothing. -/
def fsAllMissing : FS :=
  ⟨"/Users/u".data, fun _ => false, fun _ => 0, fun _ => none, fun _ => false, fun _ => []⟩

/-- Attachment stored at an absolute path with no transfer name. -/
def attAbsPath : Attachment :=
  ⟨3, [], some ("/x/y".data), none, none, 5, none⟩

/-! ## Change-driven sync cycle (main.MessagesSyncHelperApp._on_db_change and
sync_client.SyncClient.send_messages) -/

/-- Observable actions of one _on_db_change cycle, in program order.
sendCompleted is the completion of the scheduled send_messages coroutine;
_on_db_change itself never waits for it, so it never appears in the trace
the handler produces. -/
inductive SyncEvent
  | fetchSince (cursor : Int) (limit : Nat)
  | saveCursor (v : Int)
  | queueSend (batch : List Message)
  | sendCompleted (ok : Bool)
deriving DecidableEq

/-- Driver state of the cycle: the websocket-connected flag mirrored in the
app and the persisted cursor (config.last_message_rowid). -/
structure AppState where
  connected : Bool
  cursor : Int
deriving DecidableEq

/-- Embedding of MessagesSyncHelperApp._on_db_change: bail out when not
connected; fetch messages strictly after the cursor (limit 50); when the
batch is non-empty, set the cursor to the last fetched rowid, persist it
(config.save), and only then schedule send_messages on the async loop —
run_coroutine_threadsafe merely queues the coroutine and its result is
never read. -/
def on_db_change (db : Db) (env : ReadEnv) (s : AppState) :
    List SyncEvent × AppState :=
  if !s.connected then ([], s)
  else
    let msgs := get_messages_since db env s.cursor 50
    match msgs.getLast? with
    | none => ([.fetchSince s.cursor 50], s)
    | some last =>
      ([.fetchSince s.cursor 50, .saveCursor last.rowid, .queueSend msgs],
       { s with cursor := last.rowid })

/-- Embedding of SyncClient.send_messages (pushRecords): false when not
connected, false with the connection flag cleared on a send fault, true on
success. It never touches the cursor. -/
def send_messages (connected : Bool) (sendOk : Bool) (msgs : List Message) :
    Bool × Bool :=
  if !connected then (false, connected)
  else if sendOk then (true, true)
  else (false, false)

/-- Message-table row with text, a nonzero date, no handle, no attachments,
used for the concrete store states below. -/
def rowPlain (r : Int) : MsgRow :=
  ⟨r, [], some ("x".data), none, none, 0, some 1000, none, none, 0⟩

/-- Store with a single message that belongs to two chats — the
chat_message_join LEFT JOIN then emits the message twice. -/
def dbTwoChats : Db :=
  ⟨true, [rowPlain 5], [], [(1, 5), (2, 5)], []⟩

/-- Store with three messages (rowids 5, 4, 2), no chats, no handles. -/
def dbPlain : Db :=
  ⟨true, [rowPlain 5, rowPlain 4, rowPlain 2], [], [], []⟩

/-! ## Helper lemmas -/

lemma roundHalfEvenDiv1000_bound (t : Int) :
    -500 ≤ roundHalfEvenDiv1000 t * 1000 - t ∧ roundHalfEvenDiv1000 t * 1000 - t ≤ 500 := by
  unfold roundHalfEvenDiv1000
  have h1 := Int.emod_nonneg t (by norm_num : (1000 : Int) ≠ 0)
  have h2 := Int.emod_lt_of_pos t (by norm_num : (0 : Int) < 1000)
  have h3 := Int.ediv_add_emod t 1000
  split_ifs <;> constructor <;> omega

lemma two_mul_min_cap (n : Nat) : min (min (2 ^ n) 30 * 2) 30 = min (2 ^ (n + 1)) 30 := by
  rcases Nat.le_total (2 ^ n) 30 with h | h
  · rw [Nat.min_eq_left h, pow_succ]
  · have h2 : 30 ≤ 2 ^ n * 2 := le_trans h (by
      have := Nat.pos_pow_of_pos n (show 0 < 2 by norm_num)
      omega)
    rw [Nat.min_eq_right h, pow_succ, Nat.min_eq_right h2]
    decide

lemma failState_invariant (n : Nat) :
    (failState clientStart n).connected = false ∧
    (failState clientStart n).reconnectDelay = min (2 ^ n) 30 := by
  induction n with
  | zero => exact ⟨rfl, by decide⟩
  | succ n ih =>
    obtain ⟨hc, hd⟩ := ih
    constructor
    · simp [failState, run_step, connect_attempt, hc]
    · simp only [failState, run_step, connect_attempt, hc]
      simp [hd, maxReconnectDelay]
      exact two_mul_min_cap n

lemma chatExpand_fst {db : Db} {m : MsgRow} {p : MsgRow × Option Int}
    (hp : p ∈ chatExpand db m) : p.1 = m := by
  unfold chatExpand at hp
  split at hp
  · simp only [List.mem_singleton] at hp
    rw [hp]
  · simp only [List.mem_map] at hp
    obtain ⟨cj, _, h⟩ := hp
    rw [← h]

lemma mem_of_mem_flatten_expand {db : Db} {l : List MsgRow} {p : MsgRow × Option Int}
    (hp : p ∈ (l.map (chatExpand db)).flatten) : p.1 ∈ l := by
  rw [List.mem_flatten] at hp
  obtain ⟨L, hL, hpL⟩ := hp
  rw [List.mem_map] at hL
  obtain ⟨m, hm, rfl⟩ := hL
  rw [chatExpand_fst hpL]
  exact hm

lemma flatten_expand_pairwise (db : Db) (s : Int → Int → Prop) (hrefl : ∀ x, s x x)
    (l : List MsgRow) (h : l.Pairwise (fun a b => s a.rowid b.rowid)) :
    ((l.map (chatExpand db)).flatten).Pairwise (fun p q => s p.1.rowid q.1.rowid) := by
  induction l with
  | nil => simp
  | cons m rest ih =>
    cases h with
    | cons hhead htail =>
      simp only [List.map_cons, List.flatten_cons]
      rw [List.pairwise_append]
      refine ⟨?_, ih htail, ?_⟩
      · refine List.pairwise_of_forall_mem_list ?_
        intro p hp q hq
        rw [chatExpand_fst hp, chatExpand_fst hq]
        exact hrefl _
      · intro p hp q hq
        rw [chatExpand_fst hp]
        exact hhead q.1 (mem_of_mem_flatten_expand hq)

lemma chatExpand_eq_singleton {db : Db} {m : MsgRow}
    (h : (db.chatJoins.filter (fun cj => cj.2 == m.rowid)).length ≤ 1) :
    ∃ c, chatExpand db m = [(m, c)] := by
  unfold chatExpand
  rcases hmatch : db.chatJoins.filter (fun cj => cj.2 == m.rowid) with _ | ⟨c, l⟩
  · exact ⟨none, by rw [hmatch]⟩
  · rw [hmatch] at h
    simp only [List.length_cons] at h
    have hl : l = [] := by
      cases l with
      | nil => rfl
      | cons x xs => simp at h
    subst hl
    exact ⟨some c.1, by rw [hmatch]; rfl⟩

lemma flatten_expand_keys (db : Db) (l : List MsgRow)
    (h : ∀ m ∈ l, (db.chatJoins.filter (fun cj => cj.2 == m.rowid)).length ≤ 1) :
    ((l.map (chatExpand db)).flatten).map (fun p => p.1.rowid) =
      l.map (fun m => m.rowid) := by
  induction l with
  | nil => rfl
  | cons m rest ih =>
    obtain ⟨c, hc⟩ := chatExpand_eq_singleton (h m (by simp))
    simp only [List.map_cons, List.flatten_cons, List.map_append, hc]
    rw [ih (fun m2 hm2 => h m2 (by simp [hm2]))]
    rfl

lemma queryRows_pairwise (db : Db) (keep : MsgRow → Bool) (s : Int → Int → Prop)
    (ord : MsgRow → MsgRow → Prop) [DecidableRel ord] [IsTotal MsgRow ord]
    [IsTrans MsgRow ord]
    (hord : ∀ a b, ord a b → s a.rowid b.rowid) (hrefl : ∀ x, s x x) (limit : Nat) :
    (queryRows db keep ord limit).Pairwise (fun p q => s p.1.rowid q.1.rowid) := by
  have hs0 : (List.insertionSort ord (db.messages.filter keep)).Pairwise
      (fun a b => s a.rowid b.rowid) :=
    (List.sorted_insertionSort ord _).imp (fun hab => hord _ _ hab)
  have h2 := flatten_expand_pairwise db s hrefl _ hs0
  exact List.Pairwise.sublist (List.take_sublist _ _) h2

lemma queryRows_mem (db : Db) (keep : MsgRow → Bool) (ord : MsgRow → MsgRow → Prop)
    [DecidableRel ord] (limit : Nat) {p : MsgRow × Option Int}
    (hp : p ∈ queryRows db keep ord limit) : p.1 ∈ db.messages ∧ keep p.1 = true := by
  have h1 : p ∈ ((List.insertionSort ord (db.messages.filter keep)).map
      (chatExpand db)).flatten :=
    (List.take_sublist _ _).subset hp
  have h2 := mem_of_mem_flatten_expand h1
  have h3 := (List.perm_insertionSort ord _).mem_iff.mp h2
  exact List.mem_filter.mp h3

lemma queryRows_length (db : Db) (keep : MsgRow → Bool) (ord : MsgRow → MsgRow → Prop)
    [DecidableRel ord] (limit : Nat) :
    (queryRows db keep ord limit).length ≤ limit :=
  List.length_take_le _ _

lemma queryRows_keys_strict (db : Db) (keep : MsgRow → Bool) (s : Int → Int → Prop)
    (ord : MsgRow → MsgRow → Prop) [DecidableRel ord] [IsTotal MsgRow ord]
    [IsTrans MsgRow ord]
    (hord : ∀ a b, ord a b → s a.rowid b.rowid)
    (hnodup : (db.messages.map (fun m => m.rowid)).Nodup)
    (hjoin : ∀ m ∈ db.messages,
      (db.chatJoins.filter (fun cj => cj.2 == m.rowid)).length ≤ 1)
    (limit : Nat) :
    ((queryRows db keep ord limit).map (fun p => p.1.rowid)).Pairwise
      (fun a b => s a b ∧ a ≠ b) := by
  have hperm : List.Perm (List.insertionSort ord (db.messages.filter keep))
      (db.messages.filter keep) := List.perm_insertionSort ord _
  have hmem : ∀ m ∈ List.insertionSort ord (db.messages.filter keep),
      m ∈ db.messages := by
    intro m hm
    exact (List.mem_filter.mp (hperm.mem_iff.mp hm)).1
  have hkeys : (((List.insertionSort ord (db.messages.filter keep)).map
        (chatExpand db)).flatten).map (fun p => p.1.rowid) =
      (List.insertionSort ord (db.messages.filter keep)).map (fun m => m.rowid) :=
    flatten_expand_keys db _ (fun m hm => hjoin m (hmem m hm))
  have hpair : ((List.insertionSort ord (db.messages.filter keep)).map
      (fun m => m.rowid)).Pairwise s :=
    List.pairwise_map.mpr ((List.sorted_insertionSort ord _).imp (fun hab => hord _ _ hab))
  have hnd : ((List.insertionSort ord (db.messages.filter keep)).map
      (fun m => m.rowid)).Nodup := by
    have h1 : ((db.messages.filter keep).map (fun m => m.rowid)).Sublist
        (db.messages.map (fun m => m.rowid)) :=
      (List.filter_sublist _).map _
    have h2 : ((db.messages.filter keep).map (fun m => m.rowid)).Nodup :=
      List.Nodup.sublist h1 hnodup
    exact ((hperm.map (fun m => m.rowid)).symm).nodup h2
  have hcomb := hpair.and hnd
  have heq : (queryRows db keep ord limit).map (fun p => p.1.rowid) =
      ((((List.insertionSort ord (db.messages.filter keep)).map
        (chatExpand db)).flatten).map (fun p => p.1.rowid)).take limit := by
    unfold queryRows
    rw [List.map_take]
  rw [heq, hkeys]
  exact List.Pairwise.sublist (List.take_sublist _ _) hcomb

lemma since_map_rowid (db : Db) (env : ReadEnv) (P : Int) (N : Nat)
    (hc : db.connected = true) :
    (get_messages_since db env P N).map (fun m => m.rowid) =
      (queryRows db (fun m => decide (P < m.rowid)) msgLE N).map (fun p => p.1.rowid) := by
  unfold get_messages_since
  rw [hc]
  simp [List.map_map]
  intro a b _
  rfl

lemma before_map_rowid (db : Db) (env : ReadEnv) (P : Int) (N : Nat)
    (hc : db.connected = true) :
    (get_messages_before db env P N).map (fun m => m.rowid) =
      (queryRows db (fun m => decide (m.rowid < P)) msgGE N).map (fun p => p.1.rowid) := by
  unfold get_messages_before
  rw [hc]
  simp [List.map_map]
  intro a b _
  rfl

lemma since_pairwise_le (db : Db) (env : ReadEnv) (P : Int) (N : Nat) :
    ((get_messages_since db env P N).map (fun m => m.rowid)).Pairwise (· ≤ ·) := by
  by_cases hc : db.connected = true
  · rw [since_map_rowid db env P N hc]
    exact List.pairwise_map.mpr
      (queryRows_pairwise db _ (fun a b => a ≤ b) msgLE (fun a b h => h)
        (fun x => le_refl x) N)
  · unfold get_messages_since
    simp [Bool.not_eq_true] at hc
    simp [hc]

lemma before_pairwise_ge (db : Db) (env : ReadEnv) (P : Int) (N : Nat) :
    ((get_messages_before db env P N).map (fun m => m.rowid)).Pairwise
      (fun a b => b ≤ a) := by
  by_cases hc : db.connected = true
  · rw [before_map_rowid db env P N hc]
    exact List.pairwise_map.mpr
      (queryRows_pairwise db _ (fun a b => b ≤ a) msgGE (fun a b h => h)
        (fun x => le_refl x) N)
  · unfold get_messages_before
    simp [Bool.not_eq_true] at hc
    simp [hc]

lemma since_mem_gt (db : Db) (env : ReadEnv) (P : Int) (N : Nat) :
    ∀ m ∈ get_messages_since db env P N, P < m.rowid := by
  intro m hm
  unfold get_messages_since at hm
  by_cases hc : db.connected = true
  · rw [hc] at hm
    simp only [Bool.not_true, Bool.false_eq_true, if_false, List.mem_map] at hm
    obtain ⟨p, hp, rfl⟩ := hm
    have := (queryRows_mem db _ msgLE N hp).2
    exact of_decide_eq_true this
  · simp [Bool.not_eq_true] at hc
    rw [hc] at hm
    simp at hm

lemma before_mem_lt (db : Db) (env : ReadEnv) (P : Int) (N : Nat) :
    ∀ m ∈ get_messages_before db env P N, m.rowid < P := by
  intro m hm
  unfold get_messages_before at hm
  by_cases hc : db.connected = true
  · rw [hc] at hm
    simp only [Bool.not_true, Bool.false_eq_true, if_false, List.mem_map] at hm
    obtain ⟨p, hp, rfl⟩ := hm
    have := (queryRows_mem db _ msgGE N hp).2
    exact of_decide_eq_true this
  · simp [Bool.not_eq_true] at hc
    rw [hc] at hm
    simp at hm

lemma since_length_le (db : Db) (env : ReadEnv) (P : Int) (N : Nat) :
    (get_messages_since db env P N).length ≤ N := by
  unfold get_messages_since
  by_cases hc : db.connected = true
  · rw [hc]
    simp only [Bool.not_true, Bool.false_eq_true, if_false, List.length_map]
    exact queryRows_length db _ msgLE N
  · simp [Bool.not_eq_true] at hc
    simp [hc]

lemma before_length_le (db : Db) (env : ReadEnv) (P : Int) (N : Nat) :
    (get_messages_before db env P N).length ≤ N := by
  unfold get_messages_before
  by_cases hc : db.connected = true
  · rw [hc]
    simp only [Bool.not_true, Bool.false_eq_true, if_false, List.length_map]
    exact queryRows_length db _ msgGE N
  · simp [Bool.not_eq_true] at hc
    simp [hc]

lemma since_pairwise_lt (db : Db) (env : ReadEnv) (P : Int) (N : Nat)
    (hnodup : (db.messages.map (fun m => m.rowid)).Nodup)
    (hjoin : ∀ m ∈ db.messages,
      (db.chatJoins.filter (fun cj => cj.2 == m.rowid)).length ≤ 1) :
    ((get_messages_since db env P N).map (fun m => m.rowid)).Pairwise (· < ·) := by
  by_cases hc : db.connected = true
  · rw [since_map_rowid db env P N hc]
    have h := queryRows_keys_strict db (fun m => decide (P < m.rowid))
      (fun a b => a ≤ b) msgLE (fun a b hab => hab) hnodup hjoin N
    exact h.imp (fun hab => lt_of_le_of_ne hab.1 hab.2)
  · unfold get_messages_since
    simp [Bool.not_eq_true] at hc
    simp [hc]

lemma before_pairwise_gt (db : Db) (env : ReadEnv) (P : Int) (N : Nat)
    (hnodup : (db.messages.map (fun m => m.rowid)).Nodup)
    (hjoin : ∀ m ∈ db.messages,
      (db.chatJoins.filter (fun cj => cj.2 == m.rowid)).length ≤ 1) :
    ((get_messages_before db env P N).map (fun m => m.rowid)).Pairwise
      (fun a b => b < a) := by
  by_cases hc : db.connected = true
  · rw [before_map_rowid db env P N hc]
    have h := queryRows_keys_strict db (fun m => decide (m.rowid < P))
      (fun a b => b ≤ a) msgGE (fun a b hab => hab) hnodup hjoin N
    exact h.imp (fun hab => lt_of_le_of_ne hab.1 (Ne.symm hab.2))
  · unfold get_messages_before
    simp [Bool.not_eq_true] at hc
    simp [hc]

lemma pairwise_le_getLast :
    ∀ (l : List Int), l.Pairwise (· ≤ ·) → ∀ y, l.getLast? = some y →
      ∀ x ∈ l, x ≤ y := by
  intro l
  induction l with
  | nil =>
    intro _ y hy
    cases hy
  | cons a rest ih =>
    intro h y hy x hx
    cases rest with
    | nil =>
      simp only [List.getLast?_singleton, Option.some.injEq] at hy
      simp only [List.mem_singleton] at hx
      rw [hx, hy]
    | cons b rest2 =>
      rw [List.getLast?_cons_cons] at hy
      cases h with
      | cons hhead htail =>
        rcases List.mem_cons.mp hx with hx | hx
        · subst hx
          exact hhead y (List.mem_of_mem_getLast? hy)
        · exact ih htail y hy x hx

lemma fallbackLoop_good (bytes : List Nat) :
    ∀ cur best, (best = [] ∨ (best.any pyIsAlnumChar = true ∧ startsWithNS best = false)) →
      (fallbackLoop bytes cur best = [] ∨
        ((fallbackLoop bytes cur best).any pyIsAlnumChar = true ∧
          startsWithNS (fallbackLoop bytes cur best) = false)) := by
  induction bytes with
  | nil =>
    intro cur best h
    cases cur with
    | none => simpa [fallbackLoop] using h
    | some run =>
      simp only [fallbackLoop]
      split
      · rename_i cand hdec
        by_cases hp : fallbackPassesEnd cand best = true
        · rw [if_pos hp]
          right
          unfold fallbackPassesEnd at hp
          simp only [Bool.and_eq_true, Bool.not_eq_true'] at hp
          exact ⟨hp.1.2, hp.2⟩
        · rw [if_neg hp]
          exact h
      · exact h
  | cons b rest ih =>
    intro cur best h
    cases cur with
    | none =>
      simp only [fallbackLoop]
      split_ifs <;> exact ih _ _ h
    | some run =>
      simp only [fallbackLoop]
      split_ifs with h1 h2
      · exact ih _ _ h
      · exact ih _ _ h
      · split
        · rename_i cand hdec
          by_cases hp : fallbackPassesMid cand best = true
          · rw [if_pos hp]
            refine ih _ _ (Or.inr ?_)
            unfold fallbackPassesMid at hp
            simp only [Bool.and_eq_true, Bool.not_eq_true'] at hp
            exact ⟨hp.1.1.1.2, hp.1.1.2⟩
          · rw [if_neg hp]
            exact ih _ _ h
        · exact ih _ _ h

lemma extract_fallback_shape (blob : List Nat) :
    extract_fallback blob = none ∨
      ∃ run : List Char, extract_fallback blob = some (pyStrip run) ∧
        run.any pyIsAlnumChar = true ∧ startsWithNS run = false ∧ 1 < run.length := by
  unfold extract_fallback
  by_cases hb : blob = []
  · simp [hb]
  · simp only [hb, if_false]
    have hg := fallbackLoop_good blob none [] (Or.inl rfl)
    by_cases hlen : 1 < (fallbackLoop blob none []).length
    · right
      refine ⟨fallbackLoop blob none [], by simp [hlen], ?_, ?_, hlen⟩
      · rcases hg with h | h
        · rw [h] at hlen; simp at hlen
        · exact h.1
      · rcases hg with h | h
        · rw [h] at hlen; simp at hlen
        · exact h.2
    · left
      simp [hlen]

lemma extract_eq_fallback_of_no_marker (blob : List Nat) (h : findMarker blob = none) :
    extract_text_from_attributed_body blob = extract_fallback blob := by
  by_cases hb : blob = []
  · subst hb; rfl
  · simp [extract_text_from_attributed_body, hb, h]

lemma extract_eq_fallback_of_bad_prefix (blob : List Nat) (idx : Nat)
    (h : findMarker blob = some idx) (hp : parseLenPrefix blob (idx + 2) = none) :
    extract_text_from_attributed_body blob = extract_fallback blob := by
  have hb : blob ≠ [] := by
    intro hb
    subst hb
    cases h
  simp [extract_text_from_attributed_body, hb, h, hp]

/-! ## Claim C2: timestamp conversion -/

/-- C2, corrected. Zero or absent raw values yield no timestamp and never
raise. For a nonzero tick count within 2 to the 61 of the epoch (about 73
years either way, covering every plausible store timestamp and staying far
inside datetime's representable window under any timezone) the conversion
returns a value, but NOT the epoch offset plus exactly t nanoseconds: the
result carries datetime's microsecond resolution and the source's binary
float roundings, a combined error of at most 2 microseconds (the exact
model below contributes at most 500 ns of it; the disclosed float slack is
under 1.8 microseconds on this range). A tick count at or beyond
datetime's representable range makes the conversion raise instead of
returning anything. -/
theorem c2_timestamp_conversion :
    apple_timestamp_to_datetime none = .ok none ∧
    apple_timestamp_to_datetime (some 0) = .ok none ∧
    (∀ t : Int, t ≠ 0 → -(2 ^ 61) ≤ t → t ≤ 2 ^ 61 →
      ∃ r, apple_timestamp_to_datetime (some t) = .ok (some r) ∧
        -2000 ≤ r * 1000 - (appleEpochOffsetSeconds * 1000000000 + t) ∧
        r * 1000 - (appleEpochOffsetSeconds * 1000000000 + t) ≤ 2000) ∧
    (∀ t : Int,
      datetimeMaxTs * 1000000000 ≤ appleEpochOffsetSeconds * 1000000000 + t →
      apple_timestamp_to_datetime (some t) = .raised) := by
  have h61 : (2 : Int) ^ 61 = 2305843009213693952 := by norm_num
  refine ⟨rfl, rfl, ?_, ?_⟩
  · intro t ht h1 h2
    rw [h61] at h1 h2
    have hb := roundHalfEvenDiv1000_bound t
    refine ⟨appleTicksToMicros t, ?_, ?_, ?_⟩
    · have hrange : datetimeMinTs * 1000000 ≤ appleTicksToMicros t ∧
          appleTicksToMicros t < datetimeMaxTs * 1000000 := by
        unfold appleTicksToMicros appleEpochOffsetSeconds datetimeMinTs datetimeMaxTs
        omega
      simp [apple_timestamp_to_datetime, ht, hrange]
    · unfold appleTicksToMicros appleEpochOffsetSeconds at *
      omega
    · unfold appleTicksToMicros appleEpochOffsetSeconds at *
      omega
  · intro t hge
    have hb := roundHalfEvenDiv1000_bound t
    unfold datetimeMaxTs appleEpochOffsetSeconds at hge
    have ht : ¬ t = 0 := by omega
    have hnr : ¬ (datetimeMinTs * 1000000 ≤ appleTicksToMicros t ∧
        appleTicksToMicros t < datetimeMaxTs * 1000000) := by
      unfold appleTicksToMicros appleEpochOffsetSeconds datetimeMinTs datetimeMaxTs
      omega
    simp [apple_timestamp_to_datetime, ht, hnr]

/-- C2, counterexample to the claim as stated, in both halves: at one tick
(one nanosecond past the Apple epoch) no result r equals the offset plus
exactly 1 nanosecond — the conversion returns the bare offset, losing the
tick; and at 10 to the 21 ticks (about the year 33700, past datetime's
range) the conversion raises instead of converting, so it does throw. -/
theorem c2_counterexample :
    (¬ ∃ r : Int, apple_timestamp_to_datetime (some 1) = .ok (some r) ∧
        r * 1000 = appleEpochOffsetSeconds * 1000000000 + 1) ∧
    apple_timestamp_to_datetime (some 1000000000000000000000) = .raised := by
  constructor
  · rintro ⟨r, h1, h2⟩
    have he : apple_timestamp_to_datetime (some 1) = .ok (some 978307200000000) := by
      decide
    rw [he] at h1
    injection h1 with hv
    have hr : r = 978307200000000 := (Option.some.inj hv).symm
    subst hr
    revert h2
    decide
  · decide

/-- C2, witness: the amended theorem applied at the concrete tick count
5000000 (five milliseconds). -/
theorem c2_witness :
    ∃ r, apple_timestamp_to_datetime (some 5000000) = .ok (some r) ∧
      -2000 ≤ r * 1000 - (appleEpochOffsetSeconds * 1000000000 + 5000000) ∧
      r * 1000 - (appleEpochOffsetSeconds * 1000000000 + 5000000) ≤ 2000 :=
  c2_timestamp_conversion.2.2.1 5000000 (by decide) (by decide) (by decide)

/-! ## Claim C5: history request mutual exclusion -/

/-- C5, confirmed. A second history request submitted while one is
outstanding returns false immediately with the worker state (including the
queue) unchanged — hence processing proceeds exactly as if the second
request had never been issued, leaving the first request's eventual result
unaltered. An accepted request sets the flag at submission time, and
_process_request clears the flag, for a produced result and for an internal
failure alike, only after the result has been produced (the event list is
in program order: result produced, then flag cleared, then callback). -/
theorem c5_history_mutex :
    (∀ op p cb s, s.historyInProgress = true →
        request_history op p cb s = (false, s)) ∧
    (∀ op p cb s, s.historyInProgress = false →
        request_history op p cb s =
          (true, { historyInProgress := true, queue := s.queue ++ [⟨op, p, cb⟩] })) ∧
    (∀ db env fail op p cb s, s.historyInProgress = true →
        worker_step db env fail ((request_history op p cb s).2) =
          worker_step db env fail s) ∧
    (∀ db env fail r s, is_history_op r.operation = true →
        (process_request db env fail r s).1 =
          [.resultProduced r.cb (if fail then none else dispatch_operation db env r),
           .flagCleared,
           .callbackInvoked r.cb (if fail then none else dispatch_operation db env r)] ∧
        (process_request db env fail r s).2.historyInProgress = false) := by
  refine ⟨?_, ?_, ?_, ?_⟩
  · intro op p cb s h; simp [request_history, h]
  · intro op p cb s h; simp [request_history, h]
  · intro db env fail op p cb s h; simp [request_history, h]
  · intro db env fail r s h
    constructor <;> simp [process_request, h]

/-- C5, witness: a worker with the flag set refuses a concrete since
request, state untouched. -/
theorem c5_witness :
    request_history "get_messages_since".data ⟨some 3, none, some 5⟩ 7
        ⟨true, []⟩ = (false, ⟨true, []⟩) :=
  c5_history_mutex.1 _ _ _ _ rfl

/-! ## Claim C6: reconnect backoff -/

/-- C6, confirmed. Starting from the floor, seven consecutive failed
connect attempts sleep 1, 2, 4, 8, 16, 30, 30 seconds; in general the nth
failed attempt sleeps min(2 to the n, 30) seconds; and any successful
connect resets the delay to the 1 second floor at once. -/
theorem c6_backoff :
    failureSleeps clientStart 7 = [1, 2, 4, 8, 16, 30, 30] ∧
    (∀ n, (run_step false (failState clientStart n)).1 = some (min (2 ^ n) 30)) ∧
    (∀ s, (connect_attempt true s).reconnectDelay = 1 ∧
          (connect_attempt true s).connected = true) := by
  refine ⟨by decide, ?_, ?_⟩
  · intro n
    obtain ⟨hc, hd⟩ := failState_invariant n
    simp [run_step, connect_attempt, hc, hd]
  · intro s
    constructor <;> simp [connect_attempt]

/-! ## Claim C7: attachment size cap -/

/-- C7, amended. Whenever the resolved file's on-disk stat size exceeds the
10 MiB ceiling, send_attachment_data with include_data set never inlines
the bytes: the envelope carries the file_too_large error tag and no data,
and exactly one audit-log line is appended — regardless of how the final
channel send fares. (The declared total_bytes plays no part in the check;
see the counterexample.) -/
theorem c7_size_cap :
    ∀ fs outcome a p, local_path fs a = some p →
      fs.pathExists p = true →
      MAX_ATTACHMENT_SIZE < fs.statSize p →
      (send_attachment_data fs true outcome a true).payload =
        some ⟨a, some p, none, some .file_too_large⟩ ∧
      (send_attachment_data fs true outcome a true).logged = [.file_too_large] := by
  intro fs outcome a p hlp hex hsz
  cases outcome <;>
    constructor <;>
      simp [send_attachment_data, attach_step, hlp, hex, hsz]

/-- C7, counterexample to the claim as stated: an attachment whose declared
size (20 MiB) exceeds the ceiling but whose on-disk file is 100 bytes is
inlined in full, with no error tag and no audit-log line — the source
checks the stat size, not the declared size. -/
theorem c7_counterexample :
    MAX_ATTACHMENT_SIZE < attDeclaredBig.total_bytes ∧
    (send_attachment_data fsSmallFile true .ok attDeclaredBig true).payload =
      some ⟨attDeclaredBig, some ("/big".data), some [7], none⟩ ∧
    (send_attachment_data fsSmallFile true .ok attDeclaredBig true).logged = [] := by
  refine ⟨by decide, by decide, by decide⟩

/-- C7, witness: the amended theorem applied to a concrete oversized
on-disk file. -/
theorem c7_witness :
    (send_attachment_data fsHugeFile true .ok attOnHuge true).payload =
      some ⟨attOnHuge, some ("/f".data), none, some .file_too_large⟩ ∧
    (send_attachment_data fsHugeFile true .ok attOnHuge true).logged =
      [.file_too_large] :=
  c7_size_cap fsHugeFile .ok attOnHuge ("/f".data) (by decide) rfl (by decide)

/-! ## Claim C4: paginated query ordering -/

/-- C4, amended. since(P, N) returns records with non-decreasing positions,
all strictly above P, at most N of them; before(P, N) returns
non-increasing positions, all strictly below P, at most N. Strict
monotonicity additionally needs the table invariants that rowids are unique
and no message sits in two chats: the chat LEFT JOIN emits one output row
per join row, so a message in two chats appears twice with equal positions
(see the counterexample). -/
theorem c4_query_order :
    (∀ db env P N,
        ((get_messages_since db env P N).map (fun m => m.rowid)).Pairwise (· ≤ ·) ∧
        (∀ m ∈ get_messages_since db env P N, P < m.rowid) ∧
        (get_messages_since db env P N).length ≤ N) ∧
    (∀ db env P N,
        ((get_messages_before db env P N).map (fun m => m.rowid)).Pairwise
          (fun a b => b ≤ a) ∧
        (∀ m ∈ get_messages_before db env P N, m.rowid < P) ∧
        (get_messages_before db env P N).length ≤ N) ∧
    (∀ db env P N, (db.messages.map (fun m => m.rowid)).Nodup →
        (∀ m ∈ db.messages,
          (db.chatJoins.filter (fun cj => cj.2 == m.rowid)).length ≤ 1) →
        ((get_messages_since db env P N).map (fun m => m.rowid)).Pairwise (· < ·) ∧
        ((get_messages_before db env P N).map (fun m => m.rowid)).Pairwise
          (fun a b => b < a)) :=
  ⟨fun db env P N =>
    ⟨since_pairwise_le db env P N, since_mem_gt db env P N, since_length_le db env P N⟩,
   fun db env P N =>
    ⟨before_pairwise_ge db env P N, before_mem_lt db env P N, before_length_le db env P N⟩,
   fun db env P N hnodup hjoin =>
    ⟨since_pairwise_lt db env P N hnodup hjoin,
     before_pairwise_gt db env P N hnodup hjoin⟩⟩

/-- C4, counterexample to strict monotonicity as claimed: a store whose one
message (rowid 5) belongs to two chats makes since(0, 10) return the record
twice — positions 5, 5 are not strictly increasing. -/
theorem c4_counterexample :
    (get_messages_since dbTwoChats ⟨0⟩ 0 10).map (fun m => m.rowid) = [5, 5] ∧
    ¬ ((get_messages_since dbTwoChats ⟨0⟩ 0 10).map (fun m => m.rowid)).Pairwise
        (· < ·) := by
  constructor
  · decide
  · decide

/-- C4, witness: strict ordering of both directions on a concrete
three-message store with unique rowids and no chat joins. -/
theorem c4_witness :
    ((get_messages_since dbPlain ⟨0⟩ 3 50).map (fun m => m.rowid)).Pairwise (· < ·) ∧
    ((get_messages_before dbPlain ⟨0⟩ 5 10).map (fun m => m.rowid)).Pairwise
      (fun a b => b < a) :=
  ⟨(c4_query_order.2.2 dbPlain ⟨0⟩ 3 50 (by decide) (by decide)).1,
   (c4_query_order.2.2 dbPlain ⟨0⟩ 5 10 (by decide) (by decide)).2⟩

/-! ## Claim C10: record defaults -/

/-- C10, confirmed. The serialized created date is always present (a Python
datetime is unconditionally truthy): a null or zero raw created date is
replaced by the wall clock and an unjoined (or empty) sender handle by the
literal unknown, while the read date — like the delivered date — can still
serialize to null, as the concrete store exhibits. -/
theorem c10_record_defaults :
    (∀ m : Message, (serialize_message m).date = some m.date) ∧
    (∀ db env p, (p.1.dateRaw = none ∨ p.1.dateRaw = some 0) →
        (buildMessage db env p).date = env.nowUs) ∧
    (∀ db env p, (handleLookup db p.1 = none ∨ handleLookup db p.1 = some []) →
        (buildMessage db env p).handle_id = "unknown".data) ∧
    (∀ db env P N m, m ∈ get_messages_since db env P N →
        (serialize_message m).date ≠ none) ∧
    (∃ m, m ∈ get_messages_since dbPlain ⟨0⟩ 0 10 ∧
        (serialize_message m).date_read = none) := by
  refine ⟨fun m => rfl, ?_, ?_, ?_, ?_⟩
  · intro db env p h
    have hd : (buildMessage db env p).date =
        (appleTsOrNone p.1.dateRaw).getD env.nowUs := rfl
    rcases h with h | h <;> rw [hd, h] <;> rfl
  · intro db env p h
    have hh : (buildMessage db env p).handle_id =
        (match handleLookup db p.1 with
         | none => "unknown".data
         | some hdl => if hdl.isEmpty then "unknown".data else hdl) := rfl
    rcases h with h | h <;> rw [hh, h] <;> rfl
  · intro db env P N m _
    simp [serialize_message]
  · exact ⟨buildMessage dbPlain ⟨0⟩ (rowPlain 2, none), by decide, by decide⟩

/-- C10, witness: the fallback clauses applied to a concrete row with a
null raw date and no handle reference. -/
theorem c10_witness :
    (buildMessage dbPlain ⟨77⟩ (⟨9, [], none, none, none, 0, none, none, none, 0⟩, none)).date
        = 77 ∧
    (buildMessage dbPlain ⟨77⟩
        (⟨9, [], none, none, none, 0, none, none, none, 0⟩, none)).handle_id =
      "unknown".data :=
  ⟨c10_record_defaults.2.1 dbPlain ⟨77⟩ _ (Or.inl rfl),
   c10_record_defaults.2.2.1 dbPlain ⟨77⟩ _ (Or.inl rfl)⟩

/-! ## Claim C1: cursor update ordering -/

/-- C1, amended. In a connected state with a non-empty fetched batch,
_on_db_change persists the cursor BEFORE the batch is handed to the network
layer: the cycle's trace is fetch, then cursor save, then queueing of the
coroutine — whose completion is never awaited, so no send-completion event
exists in the trace at all. The saved cursor does equal the maximum
position among the fetched (hence pushed) records, never less,
independently of how the send later fares (send_messages never touches the
cursor). -/
theorem c1_cursor_update_order :
    ∀ db env s, s.connected = true →
      ∀ last, (get_messages_since db env s.cursor 50).getLast? = some last →
        (on_db_change db env s).1 =
          [.fetchSince s.cursor 50, .saveCursor last.rowid,
           .queueSend (get_messages_since db env s.cursor 50)] ∧
        (on_db_change db env s).2.cursor = last.rowid ∧
        (∀ m ∈ get_messages_since db env s.cursor 50, m.rowid ≤ last.rowid) ∧
        (∀ (i : Nat) (ok : Bool),
          ((on_db_change db env s).1)[i]? ≠ some (SyncEvent.sendCompleted ok)) := by
  intro db env s hc last hlast
  have hred : on_db_change db env s =
      ([.fetchSince s.cursor 50, .saveCursor last.rowid,
        .queueSend (get_messages_since db env s.cursor 50)],
       { s with cursor := last.rowid }) := by
    unfold on_db_change
    rw [hc]
    simp only [Bool.not_true, Bool.false_eq_true, if_false, hlast]
  refine ⟨by rw [hred], by rw [hred], ?_, ?_⟩
  · intro m hm
    have hx : m.rowid ∈ (get_messages_since db env s.cursor 50).map (fun m => m.rowid) :=
      List.mem_map_of_mem _ hm
    have hy : ((get_messages_since db env s.cursor 50).map
        (fun m => m.rowid)).getLast? = some last.rowid := by
      rw [List.getLast?_map, hlast]
      rfl
    exact pairwise_le_getLast _ (since_pairwise_le db env s.cursor 50) last.rowid hy
      m.rowid hx
  · intro i ok
    rw [hred]
    rcases i with _ | _ | _ | i <;> simp

/-- C1, counterexample to the claim as stated: on a concrete connected
state (cursor 3, store rowids 5, 4, 2) the cycle saves cursor 5 at trace
position 1, before the batch is queued at position 2, and no
send-completion event appears anywhere — the cursor update does not wait
for the batch to be handed over, let alone sent. -/
theorem c1_counterexample :
    (on_db_change dbPlain ⟨0⟩ ⟨true, 3⟩).1 =
      [.fetchSince 3 50, .saveCursor 5,
       .queueSend (get_messages_since dbPlain ⟨0⟩ 3 50)] ∧
    SyncEvent.saveCursor 5 ∈ (on_db_change dbPlain ⟨0⟩ ⟨true, 3⟩).1 ∧
    (∀ ok, SyncEvent.sendCompleted ok ∉ (on_db_change dbPlain ⟨0⟩ ⟨true, 3⟩).1) ∧
    (on_db_change dbPlain ⟨0⟩ ⟨true, 3⟩).2.cursor = 5 := by
  refine ⟨by decide, by decide, ?_, by decide⟩
  intro ok
  cases ok <;> decide

/-- C1, witness: the amended theorem applied to the concrete store, cursor
3 — the new cursor is the maximal fetched rowid 5. -/
theorem c1_witness :
    (on_db_change dbPlain ⟨0⟩ ⟨true, 3⟩).2.cursor =
      (buildMessage dbPlain ⟨0⟩ (rowPlain 5, none)).rowid :=
  (c1_cursor_update_order dbPlain ⟨0⟩ ⟨true, 3⟩ rfl
      (buildMessage dbPlain ⟨0⟩ (rowPlain 5, none)) (by decide)).2.1

/-! ## Claim C8: fallback extraction safety -/

/-- C8, amended. For every blob the extractor is total (the embedding is a
total function, so no exception can be modelled) and the fallback scan
returns either nothing or the whitespace-trim of a decoded run that is
longer than one character, contains an alphanumeric character, and does not
start with the reserved class-name marker; marker-less blobs and blobs with
a malformed length prefix take exactly this fallback path. The sentinel
literal and the internal attribute-name infix are, however, excluded only
for runs closed before the end of the blob — a run reaching the end of the
blob is exempt from those two tests (see the counterexample). -/
theorem c8_fallback_safety :
    ∀ blob : List Nat,
      (extract_fallback blob = none ∨
        ∃ run : List Char, extract_fallback blob = some (pyStrip run) ∧
          run.any pyIsAlnumChar = true ∧ startsWithNS run = false ∧ 1 < run.length) ∧
      (findMarker blob = none →
        extract_text_from_attributed_body blob = extract_fallback blob) ∧
      (∀ idx, findMarker blob = some idx → parseLenPrefix blob (idx + 2) = none →
        extract_text_from_attributed_body blob = extract_fallback blob) :=
  fun blob =>
    ⟨extract_fallback_shape blob,
     extract_eq_fallback_of_no_marker blob,
     fun idx h hp => extract_eq_fallback_of_bad_prefix blob idx h hp⟩

/-- C8, counterexample to the claim as stated: the marker-less blob whose
bytes spell the format sentinel is returned verbatim — the end-of-blob run
skips the sentinel filter, so the result IS the reserved sentinel literal
the claim says is always excluded. -/
theorem c8_counterexample :
    findMarker (asciiCodes "streamtyped".data) = none ∧
    extract_text_from_attributed_body (asciiCodes "streamtyped".data) =
      some ("streamtyped".data) := by
  constructor
  · decide
  · decide

/-- C8, witness: the amended theorem's fallback-routing clause applied to a
concrete marker-less blob. -/
theorem c8_witness :
    extract_text_from_attributed_body [0, 104, 105, 0] = extract_fallback [0, 104, 105, 0] :=
  (c8_fallback_safety [0, 104, 105, 0]).2.1 (by decide)

/-! ## Claim C3: length-prefixed extraction -/

/-- C3, amended. When the marker is present, the length prefix well formed,
the declared slice inside the blob, and the slice decodes as UTF-8, the
extractor returns the decode with the object-replacement placeholder
stripped and the ends trimmed — except that a result that is empty after
stripping yields nothing rather than the empty string. An absent marker or
a malformed length prefix falls back to the heuristic scan, but a slice
that fails UTF-8 decoding yields nothing — it does NOT fall back (see the
counterexample). -/
theorem c3_extract_spec :
    (∀ blob idx len start txt,
        findMarker blob = some idx →
        parseLenPrefix blob (idx + 2) = some (len, start) →
        start + len ≤ blob.length →
        utf8Decode ((blob.drop start).take len) = some txt →
        extract_text_from_attributed_body blob =
          (if pyStrip (txt.filter (fun c => !(c == objReplacementChar))) = [] then none
           else some (pyStrip (txt.filter (fun c => !(c == objReplacementChar)))))) ∧
    (∀ blob, findMarker blob = none →
        extract_text_from_attributed_body blob = extract_fallback blob) ∧
    (∀ blob idx, findMarker blob = some idx → parseLenPrefix blob (idx + 2) = none →
        extract_text_from_attributed_body blob = extract_fallback blob) ∧
    (∀ blob idx len start,
        findMarker blob = some idx →
        parseLenPrefix blob (idx + 2) = some (len, start) →
        utf8Decode ((blob.drop start).take (min (start + len) blob.length - start)) = none →
        extract_text_from_attributed_body blob = none) := by
  refine ⟨?_, ?_, ?_, ?_⟩
  · intro blob idx len start txt hm hp hin hdec
    have hb : blob ≠ [] := by
      intro hb
      subst hb
      cases hm
    have hmin : min (start + len) blob.length = start + len := Nat.min_eq_left hin
    simp only [extract_text_from_attributed_body, hb, if_false, hm, hp, mainSliceText,
      hmin, Nat.add_sub_cancel_left, hdec]
  · exact extract_eq_fallback_of_no_marker
  · exact extract_eq_fallback_of_bad_prefix
  · intro blob idx len start hm hp hdec
    have hb : blob ≠ [] := by
      intro hb
      subst hb
      cases hm
    simp only [extract_text_from_attributed_body, hb, if_false, hm, hp, mainSliceText, hdec]

/-- C3, counterexample to the claim as stated: marker present, well-formed
single-byte length 2, slice in bounds, but the slice fails UTF-8 decoding —
the extractor returns nothing while the heuristic scan on the same blob
would return a readable run, so the promised fall-back does not happen. -/
theorem c3_counterexample :
    findMarker ([1, 43, 2, 255] ++ asciiCodes "hello world".data) = some 0 ∧
    parseLenPrefix ([1, 43, 2, 255] ++ asciiCodes "hello world".data) 2 = some (2, 3) ∧
    utf8Decode ((([1, 43, 2, 255] ++ asciiCodes "hello world".data).drop 3).take 2) = none ∧
    extract_text_from_attributed_body ([1, 43, 2, 255] ++ asciiCodes "hello world".data) =
      none ∧
    extract_fallback ([1, 43, 2, 255] ++ asciiCodes "hello world".data) =
      some ("hello world".data) := by
  refine ⟨by decide, by decide, by decide, by decide, by decide⟩

/-- C3, witness: the amended theorem's well-formed clause applied to the
blob carrying marker, length 2, and the two ASCII bytes of hi. -/
theorem c3_witness :
    extract_text_from_attributed_body [1, 43, 2, 104, 105] = some ("hi".data) := by
  have h := c3_extract_spec.1 [1, 43, 2, 104, 105] 0 2 3 ("hi".data)
    (by decide) (by decide) (by decide) (by decide)
  rw [h]
  decide

/-! ## Claim C9: local path resolution and error tags -/

/-- C9, confirmed. local_path is nothing exactly when the stored filename
is Python-falsy (the source's absence test: null or the empty string); a
resolvable filename whose path does not exist and whose permanent-folder
search finds nothing still yields the original resolved path; consequently
in send_attachment_data with include_data set the no_local_path tag is
produced exactly for absent filenames, while a resolved-but-missing file is
tagged file_not_found. -/
theorem c9_local_path :
    (∀ fs a, local_path fs a = none ↔ (a.filename = none ∨ a.filename = some [])) ∧
    (∀ fs a f, a.filename = some f → f ≠ [] →
        fs.pathExists (resolveStoredPath fs f) = false →
        (∀ tn, a.transfer_name = some tn → fs.findByName tn = none) →
        local_path fs a = some (resolveStoredPath fs f)) ∧
    (∀ fs outcome a pl,
        (send_attachment_data fs true outcome a true).payload = some pl →
        ((pl.error = some .no_local_path) ↔ (a.filename = none ∨ a.filename = some [])) ∧
        (∀ p, local_path fs a = some p → fs.pathExists p = false →
            pl.error = some .file_not_found)) := by
  have hnone : ∀ fs a, local_path fs a = none ↔ (a.filename = none ∨ a.filename = some []) := by
    intro fs a
    unfold local_path
    cases hf : a.filename with
    | none => simp
    | some f =>
      by_cases hfe : f.isEmpty
      · simp [hfe, List.isEmpty_iff.mp hfe]
      · simp only [hfe, Bool.false_eq_true, if_false]
        constructor
        · intro h
          exfalso
          revert h
          split_ifs with h1 h2
          · simp
          · cases a.transfer_name with
            | none => simp
            | some tn =>
              by_cases htn : tn.isEmpty
              · simp [htn]
              · simp only [htn, Bool.false_eq_true, if_false]
                cases hfind : fs.findByName tn <;> simp [hfind]
          · simp
        · rintro (h | h)
          · exact absurd h (by simp)
          · rw [Option.some.inj h] at hfe; simp at hfe
  refine ⟨hnone, ?_, ?_⟩
  · intro fs a f hf hfe hne hsearch
    unfold local_path
    rw [hf]
    have hfe2 : f.isEmpty = false := by
      cases f with
      | nil => exact absurd rfl hfe
      | cons a l => rfl
    simp only [hfe2, Bool.false_eq_true, if_false, hne]
    split_ifs with hvar
    · cases htn : a.transfer_name with
      | none => rfl
      | some tn =>
        by_cases htne : tn.isEmpty
        · simp [htne]
        · simp [htne, hsearch tn htn]
    · rfl
  · intro fs outcome a pl hpl
    have hpl2 : pl = (attach_step fs a true).1 := by
      cases outcome <;>
        · simp only [send_attachment_data, Bool.not_true, Bool.false_eq_true,
            if_false] at hpl
          exact (Option.some.inj hpl).symm
    subst hpl2
    constructor
    · cases hlp : local_path fs a with
      | none =>
        constructor
        · intro _
          exact (hnone fs a).mp hlp
        · intro _
          simp [attach_step, hlp]
      | some p =>
        have hns : ¬ (a.filename = none ∨ a.filename = some []) := by
          intro hc
          rw [(hnone fs a).mpr hc] at hlp
          cases hlp
        constructor
        · intro herr
          exfalso
          revert herr
          simp only [attach_step, hlp, if_true]
          split_ifs <;> simp
        · intro hc
          exact absurd hc hns
    · intro p hlp hex
      simp [attach_step, hlp, hex]

/-- C9, witness: a missing absolute path with no transfer name resolves to
itself. -/
theorem c9_witness :
    local_path fsAllMissing attAbsPath = some ("/x/y".data) := by
  have h := c9_local_path.2.1 fsAllMissing attAbsPath ("/x/y".data) rfl
    (by decide) rfl (fun tn h => by cases h)
  rw [show resolveStoredPath fsAllMissing ("/x/y".data) = "/x/y".data from by decide] at h
  exact h
